import Mathlib

/-!
Verification of the richlog logging library against its specification.

The definitions below are a shallow embedding of the Python sources:

  * `src/richlog/config/settings.py` — settings resolution (defaults, file
    layer, environment layer, level validation);
  * `src/richlog/core/handlers.py`   — the JSON formatter, the buffered
    handler and the asynchronous handler;
  * `src/richlog/utils/context.py`   — the scoped level override.

Python exceptions are modelled with `Except String` (the string is the
exception message), mutation with explicit state passing, and calls made to
an underlying wrapped handler with an explicit call trace.
-/

namespace Richlog

/-! ## Defaults (`richlog/config/defaults.py`)

Modelled from the spec: the module `richlog.config.defaults` itself is not
among the sources, only its importers and `tests/config/test_defaults.py`.
The spec (§4.1) pins the values: level INFO, DEFAULT format preset, DEFAULT
date preset, verbose tracebacks on, empty suppressed-module list; the test
file asserts exactly the same constants. -/

def DEFAULT_LEVEL : String := "INFO"

def DEFAULT_LOG_FORMAT : String := "DEFAULT"

def DEFAULT_DATE_FORMAT : String := "DEFAULT"

def DEFAULT_RICH_TRACEBACKS : Bool := true

def DEFAULT_TRACEBACK_SUPPRESS : List String := []

/-! ## Settings (`settings.py`, class `Settings`)

`Settings.__post_init__` replaces an empty `traceback_suppress` with a copy
of `DEFAULT_TRACEBACK_SUPPRESS`, which is itself the empty list, so the
constructor's net effect is the plain field assignment modelled here. -/

structure Settings where
  level : String := DEFAULT_LEVEL
  format : String := DEFAULT_LOG_FORMAT
  date_format : String := DEFAULT_DATE_FORMAT
  rich_tracebacks : Bool := DEFAULT_RICH_TRACEBACKS
  traceback_suppress : List String := DEFAULT_TRACEBACK_SUPPRESS
deriving DecidableEq

/-- Python `str.upper()` (the richlog level strings are ASCII). -/
def pyUpper (s : String) : String := ⟨s.data.map Char.toUpper⟩

/-- Python `str.lower()`. -/
def pyLower (s : String) : String := ⟨s.data.map Char.toLower⟩

/-- Python whitespace stripped by `str.strip()`. -/
def isPySpace (c : Char) : Bool :=
  c = ' ' || c = '\t' || c = '\n' || c = '\x0d' || c = '\x0b' || c = '\x0c'

/-- Python `str.strip()`: drop leading and trailing whitespace. -/
def pyStrip (s : String) : String :=
  ⟨((s.data.dropWhile isPySpace).reverse.dropWhile isPySpace).reverse⟩

def splitCommaAux : List Char → List Char → List String
  | [], acc => [⟨acc.reverse⟩]
  | c :: cs, acc =>
    if c = ',' then ⟨acc.reverse⟩ :: splitCommaAux cs [] else splitCommaAux cs (c :: acc)

/-- Python `str.split(",")`: the empty string yields `[""]`. -/
def pySplitComma (s : String) : List String := splitCommaAux s.data []

/-- The set `valid_levels` of `Settings._validate_log_level`. -/
def valid_levels : List String := ["DEBUG", "INFO", "WARNING", "ERROR", "CRITICAL"]

/-- `Settings._validate_log_level(raise_on_invalid=False)`: whether
`self.level.upper()` is one of the five known severities. -/
def Settings.validLevel (s : Settings) : Bool :=
  valid_levels.contains (pyUpper s.level)

/-- The `ConfigError` message raised by `_validate_log_level`;
`', '.join(sorted(valid_levels))` lists the severities alphabetically. -/
def invalidLevelMessage (level : String) : String :=
  s!"Invalid log level: {level}. Valid levels are: CRITICAL, DEBUG, ERROR, INFO, WARNING"

/-- `Settings._validate_log_level(raise_on_invalid=True)`: raises `ConfigError`
on an invalid level, returns normally otherwise. -/
def Settings.validateRaise (s : Settings) : Except String Unit :=
  if s.validLevel then .ok () else .error (invalidLevelMessage s.level)

/-- The `level_map` of `Settings.get_log_level`, with the numeric constants of
the Python `logging` module. -/
def level_map : List (String × Nat) :=
  [("DEBUG", 10), ("INFO", 20), ("WARNING", 30), ("ERROR", 40), ("CRITICAL", 50)]

/-- `Settings.get_log_level`: returns `logging.INFO` (20) when the level is
invalid, otherwise the mapped numeric constant. -/
def Settings.get_log_level (s : Settings) : Nat :=
  if ! s.validLevel then 20
  else (level_map.lookup (pyUpper s.level)).getD 20

/-! ## File layer (`_load_from_ini`, `_load_from_toml`)

An INI section carries raw strings; `rich_tracebacks` is read through
`configparser`'s `getboolean` and `traceback_suppress` is a raw
comma-separated string split and trimmed by the richlog code itself.  The
parse done inside `configparser`/`tomllib` (an external library) is
abstracted: a section/table is modelled as already-typed optional fields. -/

/-- `[s.strip() for s in x.split(",") if s.strip()]`. -/
def commaSplitTrim (x : String) : List String :=
  ((pySplitComma x).map pyStrip).filter (fun t => t ≠ "")

structure IniSection where
  level : Option String := none
  format : Option String := none
  date_format : Option String := none
  rich_tracebacks : Option Bool := none
  traceback_suppress : Option String := none
deriving DecidableEq

structure TomlTable where
  level : Option String := none
  format : Option String := none
  date_format : Option String := none
  rich_tracebacks : Option Bool := none
  traceback_suppress : Option (List String) := none
deriving DecidableEq

/-- The field assignments of `_load_from_ini` inside `if "richlog" in config`:
`section.get(key, current)` keeps the current value when the key is absent. -/
def applyIniSection (sec : IniSection) (s : Settings) : Settings where
  level := sec.level.getD s.level
  format := sec.format.getD s.format
  date_format := sec.date_format.getD s.date_format
  rich_tracebacks := sec.rich_tracebacks.getD s.rich_tracebacks
  traceback_suppress :=
    match sec.traceback_suppress with
    | some raw => commaSplitTrim raw
    | none => s.traceback_suppress

/-- The field assignments of `_load_from_toml` inside `if "richlog" in data`. -/
def applyTomlTable (tbl : TomlTable) (s : Settings) : Settings where
  level := tbl.level.getD s.level
  format := tbl.format.getD s.format
  date_format := tbl.date_format.getD s.date_format
  rich_tracebacks := tbl.rich_tracebacks.getD s.rich_tracebacks
  traceback_suppress := tbl.traceback_suppress.getD s.traceback_suppress

/-- `_load_from_ini`: when the file has a `richlog` section, apply its fields
and then re-validate the level (`settings._validate_log_level()`), raising
`ConfigError` on an invalid level; without the section nothing happens. -/
def _load_from_ini (sec : Option IniSection) (s : Settings) : Except String Settings :=
  match sec with
  | none => .ok s
  | some sec =>
    match (applyIniSection sec s).validateRaise with
    | .ok _ => .ok (applyIniSection sec s)
    | .error e => .error e

/-- `_load_from_toml`: same shape as `_load_from_ini`, TOML-typed values. -/
def _load_from_toml (tbl : Option TomlTable) (s : Settings) : Except String Settings :=
  match tbl with
  | none => .ok s
  | some tbl =>
    match (applyTomlTable tbl s).validateRaise with
    | .ok _ => .ok (applyTomlTable tbl s)
    | .error e => .error e

/-! ## Environment layer (`_load_from_env`)

`os.getenv` returns `none` when the variable is unset.  The walrus guards
`if level := os.getenv(...)` treat the empty string as falsy, but the
`rich_tracebacks` guard is `if tracebacks_env is not None`, which is true for
the empty string as well.  Each environment variable assigns a distinct
field, so the source's sequential mutations are presented field-wise. -/

structure Env where
  RICHLOG_LEVEL : Option String := none
  RICHLOG_FORMAT : Option String := none
  RICHLOG_DATE_FORMAT : Option String := none
  RICHLOG_RICH_TRACEBACKS : Option String := none
  RICHLOG_TRACEBACK_SUPPRESS : Option String := none
deriving DecidableEq

/-- `tracebacks_env.lower() in ("true", "1", "yes", "on")`. -/
def envBoolParse (v : String) : Bool :=
  ["true", "1", "yes", "on"].contains (pyLower v)

/-- The field assignments of `_load_from_env`. -/
def applyEnv (env : Env) (s : Settings) : Settings where
  level :=
    match env.RICHLOG_LEVEL with
    | some v => if v = "" then s.level else v
    | none => s.level
  format :=
    match env.RICHLOG_FORMAT with
    | some v => if v = "" then s.format else v
    | none => s.format
  date_format :=
    match env.RICHLOG_DATE_FORMAT with
    | some v => if v = "" then s.date_format else v
    | none => s.date_format
  rich_tracebacks :=
    match env.RICHLOG_RICH_TRACEBACKS with
    | some v => envBoolParse v
    | none => s.rich_tracebacks
  traceback_suppress :=
    match env.RICHLOG_TRACEBACK_SUPPRESS with
    | some v => if v = "" then s.traceback_suppress else commaSplitTrim v
    | none => s.traceback_suppress

/-- `_load_from_env`: apply the environment overrides, then re-validate the
level (`settings._validate_log_level()`), raising on an invalid level. -/
def _load_from_env (env : Env) (s : Settings) : Except String Settings :=
  match (applyEnv env s).validateRaise with
  | .ok _ => .ok (applyEnv env s)
  | .error e => .error e

/-! ## `load_settings` -/

/-- What `load_settings` finds at `config_path`: no path given, a missing
file, an INI-style file (optionally with a `richlog` section), or a TOML file
(optionally with a `richlog` table). -/
inductive ConfigSource where
  | noFile
  | missing (path : String)
  | iniFile (path : String) (sec : Option IniSection)
  | tomlFile (path : String) (tbl : Option TomlTable)
deriving DecidableEq

/-- The pure field effect of the file layer, without its validation: used to
state which settings value the layers produce. -/
def applyFile : ConfigSource → Settings → Settings
  | .noFile, s => s
  | .missing _, s => s
  | .iniFile _ none, s => s
  | .iniFile _ (some sec), s => applyIniSection sec s
  | .tomlFile _ none, s => s
  | .tomlFile _ (some tbl), s => applyTomlTable tbl s

/-- The tail of `load_settings` after the file layer: the environment layer
(whose exceptions are wrapped) followed by the final
`settings._validate_log_level(raise_on_invalid=True)`. -/
def finishLoad (env : Env) (s1 : Settings) : Except String Settings :=
  match _load_from_env env s1 with
  | .error e => .error ("Failed to load configuration from environment: " ++ e)
  | .ok s2 =>
    match s2.validateRaise with
    | .ok _ => .ok s2
    | .error e => .error e

/-- `load_settings`: defaults, then the file layer (missing file or a loader
exception raises `ConfigError`, the latter wrapped with the path), then the
environment layer and the final validation. -/
def load_settings (src : ConfigSource) (env : Env) : Except String Settings :=
  match src with
  | .noFile => finishLoad env {}
  | .missing path => .error s!"Configuration file not found: {path}"
  | .iniFile path sec =>
    match _load_from_ini sec {} with
    | .error e => .error s!"Failed to load configuration from {path}: {e}"
    | .ok s1 => finishLoad env s1
  | .tomlFile path tbl =>
    match _load_from_toml tbl {} with
    | .error e => .error s!"Failed to load configuration from {path}: {e}"
    | .ok s1 => finishLoad env s1

/-! ## Handlers (`core/handlers.py`)

Log records handed to a handler are opaque to the buffering/queueing logic;
they are modelled as natural numbers.  Calls made to the underlying wrapped
handler (`self.base_handler`) are recorded in an explicit trace. -/

abbrev Rec := Nat

/-- A call observed by the underlying wrapped handler. -/
inductive SinkCall where
  | emitCall (r : Rec)
  | flushCall
  | closeCall
deriving DecidableEq

/-! ### `BufferedHandler` -/

structure BufferedHandler where
  buffer_size : Nat
  buffer : List Rec := []
deriving DecidableEq

/-- `BufferedHandler.flush`: snapshot and clear the buffer under the lock,
then emit each snapshotted record to `base_handler` and call
`base_handler.flush()` — the `hasattr(self.base_handler, "flush")` guard is
always true, since `logging.Handler` defines `flush`. -/
def BufferedHandler.flush (h : BufferedHandler) : BufferedHandler × List SinkCall :=
  let records_to_flush := h.buffer
  ({ h with buffer := [] },
    records_to_flush.map SinkCall.emitCall ++ [SinkCall.flushCall])

/-- `BufferedHandler.emit`: append the record under the lock; when the buffer
has reached `buffer_size`, flush. -/
def BufferedHandler.emit (h : BufferedHandler) (r : Rec) : BufferedHandler × List SinkCall :=
  let h1 : BufferedHandler := { h with buffer := h.buffer ++ [r] }
  if h1.buffer.length ≥ h1.buffer_size then h1.flush else (h1, [])

/-- `BufferedHandler.close`: `self.flush()` followed by `super().close()`;
the latter only unregisters the handler itself from the module-level handler
list and performs no call on `base_handler`. -/
def BufferedHandler.close (h : BufferedHandler) : BufferedHandler × List SinkCall :=
  h.flush

/-- A single-threaded sequence of `emit` calls, with the concatenated trace of
calls observed by the underlying handler. -/
def emitAll : BufferedHandler → List Rec → BufferedHandler × List SinkCall
  | h, [] => (h, [])
  | h, r :: rs =>
    let step := h.emit r
    let rest := emitAll step.1 rs
    (rest.1, step.2 ++ rest.2)

/-! ### `AsyncHandler`

The handler state is the bounded queue plus two histories: `delivered`, the
records passed to `base_handler.emit` by the worker in order, and `enqueued`,
the records successfully enqueued by `emit` in order.  `queue.Queue(maxsize)`
raises `Full` on `put_nowait` exactly when `maxsize > 0` and the queue holds
at least `maxsize` items (a non-positive `maxsize` means unbounded). -/

structure AsyncState where
  queue_size : Nat
  queue : List Rec := []
  delivered : List Rec := []
  enqueued : List Rec := []
deriving DecidableEq

/-- `AsyncHandler.emit`: `put_nowait`, dropping the record silently when the
queue is full.  A total function: it neither raises nor blocks. -/
def AsyncState.emit (s : AsyncState) (r : Rec) : AsyncState :=
  if 0 < s.queue_size ∧ s.queue_size ≤ s.queue.length then s
  else { s with queue := s.queue ++ [r], enqueued := s.enqueued ++ [r] }

/-- One step of the system: a producer emits, or the worker loop body runs
once.  The worker dequeues the front record and passes it to
`base_handler.emit` (an exception raised there is swallowed and does not
affect the call trace), or times out on an empty queue and loops.  `None` is
never enqueued, so the `if record is not None` guard always passes. -/
inductive AsyncStep : AsyncState → AsyncState → Prop where
  | emitStep (s : AsyncState) (r : Rec) : AsyncStep s (s.emit r)
  | deliverStep (s : AsyncState) (r : Rec) (rest : List Rec) :
      s.queue = r :: rest →
      AsyncStep s { s with queue := rest, delivered := s.delivered ++ [r] }
  | timeoutStep (s : AsyncState) : s.queue = [] → AsyncStep s s

/-- The state right after `AsyncHandler.__init__` with `queue_size = c`. -/
def asyncInit (c : Nat) : AsyncState := { queue_size := c }

/-- States reachable by any interleaving of producer emits and worker steps. -/
inductive AsyncReachable (c : Nat) : AsyncState → Prop where
  | init : AsyncReachable c (asyncInit c)
  | step (s t : AsyncState) : AsyncReachable c s → AsyncStep s t → AsyncReachable c t

/-! ### `JSONHandler`

`JSONHandler.format` builds a dict of Python values and serialises it with
`json.dumps(log_data, ensure_ascii=False)`.  Python values are modelled by
`PyValue`; `json.dumps` raises `TypeError` when any value is not
JSON-serializable, and its rendering is modelled by a canonical JSON
printer (escaping only the quote and backslash characters). -/

inductive PyValue where
  | pyStr (s : String)
  | pyInt (n : Int)
  | pyBool (b : Bool)
  | pyNone
  | pyList (xs : List PyValue)
  | pyDict (xs : List (String × PyValue))
  | pyObj (typeName : String)

mutual

/-- Whether `json.dumps` accepts the value: strings, numbers, booleans,
`None`, and lists/dicts of serializable values; any other object raises
`TypeError`. -/
def pySerializable : PyValue → Bool
  | .pyStr _ => true
  | .pyInt _ => true
  | .pyBool _ => true
  | .pyNone => true
  | .pyList xs => pySerializableList xs
  | .pyDict kvs => pySerializableKVs kvs
  | .pyObj _ => false

def pySerializableList : List PyValue → Bool
  | [] => true
  | v :: vs => pySerializable v && pySerializableList vs

def pySerializableKVs : List (String × PyValue) → Bool
  | [] => true
  | kv :: kvs => pySerializable kv.2 && pySerializableKVs kvs

end

def jsonEscape (s : String) : String :=
  s.foldl
    (fun acc c =>
      if c = '"' then acc ++ "\\\""
      else if c = '\\' then acc ++ "\\\\"
      else acc.push c)
    ""

mutual

def pyRender : PyValue → String
  | .pyStr s => "\"" ++ jsonEscape s ++ "\""
  | .pyInt n => toString n
  | .pyBool true => "true"
  | .pyBool false => "false"
  | .pyNone => "null"
  | .pyList xs => "[" ++ pyRenderList xs ++ "]"
  | .pyDict kvs => "\x7b" ++ pyRenderKVs kvs ++ "\x7d"
  | .pyObj t => t

def pyRenderList : List PyValue → String
  | [] => ""
  | [v] => pyRender v
  | v :: vs => pyRender v ++ ", " ++ pyRenderList vs

def pyRenderKVs : List (String × PyValue) → String
  | [] => ""
  | [kv] => "\"" ++ jsonEscape kv.1 ++ "\": " ++ pyRender kv.2
  | kv :: kvs => "\"" ++ jsonEscape kv.1 ++ "\": " ++ pyRender kv.2 ++ ", " ++ pyRenderKVs kvs

end

/-- `json.dumps(log_data, ensure_ascii=False)`: raises `TypeError` when some
value in the dict is not JSON-serializable (the code passes no `default=`
fallback), otherwise returns the rendered one-line JSON object. -/
def json_dumps (log_data : List (String × PyValue)) : Except String String :=
  if pySerializableKVs log_data then
    .ok ("\x7b" ++ pyRenderKVs log_data ++ "\x7d")
  else
    .error "TypeError: object is not JSON serializable"

/-- A `logging.LogRecord` as consumed by `JSONHandler.format`: the standard
attributes used for the core fields, the optional rendered exception, and the
remaining attributes of `record.__dict__` (caller-supplied extras). -/
structure LogRecord where
  name : String
  levelname : String
  message : String
  pathname : String
  lineno : Nat
  funcName : String
  thread : Nat
  threadName : String
  process : Nat
  exc_info : Option String := none
  extras : List (String × PyValue) := []

/-- The reserved attribute set that `JSONHandler.format` excludes when
collecting extra fields. -/
def reservedFields : List String :=
  ["name", "msg", "args", "created", "filename", "funcName", "levelname",
   "levelno", "lineno", "module", "msecs", "message", "pathname", "process",
   "processName", "relativeCreated", "thread", "threadName", "exc_info",
   "exc_text", "stack_info", "taskName"]

/-- The `key not in` test of the extra-field loop in `JSONHandler.format`. -/
def notReserved (k : String) : Bool := ! reservedFields.contains k

/-- `JSONHandler.format`: the core fields, then `exc_info` when present, then
the non-reserved extras nested under `"extra"` (omitted entirely when there
are none), serialised by `json.dumps`.  The timestamp string
(`datetime.now(timezone.utc).isoformat()`) is an input of the model. -/
def JSONHandler.format (timestamp : String) (record : LogRecord) : Except String String :=
  let log_data : List (String × PyValue) :=
    [("timestamp", .pyStr timestamp),
     ("name", .pyStr record.name),
     ("level", .pyStr record.levelname),
     ("message", .pyStr record.message),
     ("pathname", .pyStr record.pathname),
     ("lineno", .pyInt record.lineno),
     ("funcName", .pyStr record.funcName),
     ("thread", .pyInt record.thread),
     ("threadName", .pyStr record.threadName),
     ("process", .pyInt record.process)]
  let log_data :=
    match record.exc_info with
    | some txt => log_data ++ [("exc_info", .pyStr txt)]
    | none => log_data
  let extra_fields := record.extras.filter (fun kv => notReserved kv.1)
  let log_data :=
    if extra_fields.isEmpty then log_data
    else log_data ++ [("extra", .pyDict extra_fields)]
  json_dumps log_data

/-! ## Scoped level override (`utils/context.py`, `log_context`)

The logger is modelled by its mutable `level` field; the dynamic extent of
the `with` block is a function from the logger state at entry to the logger
state at exit together with its outcome (normal return or a raised
exception).  The `try/finally` restores the saved level in both cases and
propagates the outcome. -/

structure Logger where
  level : Nat
deriving DecidableEq

/-- `log_context(logger, level)`: save `logger.level`, `setLevel(level)`,
run the block, and in the `finally` restore the saved level; a raised
exception propagates after the restore. -/
def log_context (logger_instance : Logger) (level : Nat)
    (body : Logger → Logger × Except String Unit) : Logger × Except String Unit :=
  let original_level := logger_instance.level
  let inScope : Logger := { logger_instance with level := level }
  let result := body inScope
  ({ result.1 with level := original_level }, result.2)

/-! ## Theorems -/

theorem _load_from_env_ok (env : Env) (s r : Settings)
    (h : _load_from_env env s = .ok r) : r = applyEnv env s := by
  unfold _load_from_env at h
  split at h
  · cases h; rfl
  · cases h

/-- C10: `Settings.get_log_level` never raises — it is a total function into
the numeric levels — and when the level string is not one of the five known
severities (case-insensitively) it silently returns the numeric INFO level
20 instead of failing. -/
theorem C10_get_log_level_invalid_degrades_to_INFO (s : Settings)
    (h : s.validLevel = false) : s.get_log_level = 20 := by
  simp [Settings.get_log_level, h]

/-- C10 witness: a settings value with the invalid level VERBOSE. -/
theorem C10_witness :
    ({ level := "VERBOSE" } : Settings).validLevel = false
    ∧ ({ level := "VERBOSE" } : Settings).get_log_level = 20 :=
  ⟨by decide, C10_get_log_level_invalid_degrades_to_INFO _ (by decide)⟩

/-- C5 counterexample: with `RICHLOG_RICH_TRACEBACKS` set to the empty
string, the claim requires the prior value (`true` by default) to be kept
unchanged, but `_load_from_env` overrides it to `false`: the guard
`tracebacks_env is not None` is true for the empty string, and `"".lower()`
is not among the accepted true tokens. -/
theorem C5_counterexample :
    ({} : Settings).rich_tracebacks = true
    ∧ _load_from_env { RICHLOG_RICH_TRACEBACKS := some "" } {}
      = .ok { rich_tracebacks := false } :=
  ⟨rfl, rfl⟩

/-- C5 amended: for `level`, `format`, `date_format` and
`traceback_suppress`, a non-empty environment value overrides the prior
(default or file-supplied) value and an unset or empty variable keeps it; for
`rich_tracebacks`, however, any set variable — the empty string included —
overrides the prior value with the case-insensitive parse of the accepted
true tokens, and only an unset variable keeps it. -/
theorem C5_env_precedence (env : Env) (s r : Settings)
    (h : _load_from_env env s = .ok r) :
    (∀ v, env.RICHLOG_LEVEL = some v → v ≠ "" → r.level = v)
    ∧ ((env.RICHLOG_LEVEL = none ∨ env.RICHLOG_LEVEL = some "") → r.level = s.level)
    ∧ (∀ v, env.RICHLOG_FORMAT = some v → v ≠ "" → r.format = v)
    ∧ ((env.RICHLOG_FORMAT = none ∨ env.RICHLOG_FORMAT = some "") → r.format = s.format)
    ∧ (∀ v, env.RICHLOG_DATE_FORMAT = some v → v ≠ "" → r.date_format = v)
    ∧ ((env.RICHLOG_DATE_FORMAT = none ∨ env.RICHLOG_DATE_FORMAT = some "")
        → r.date_format = s.date_format)
    ∧ (∀ v, env.RICHLOG_RICH_TRACEBACKS = some v → r.rich_tracebacks = envBoolParse v)
    ∧ (env.RICHLOG_RICH_TRACEBACKS = none → r.rich_tracebacks = s.rich_tracebacks)
    ∧ (∀ v, env.RICHLOG_TRACEBACK_SUPPRESS = some v → v ≠ ""
        → r.traceback_suppress = commaSplitTrim v)
    ∧ ((env.RICHLOG_TRACEBACK_SUPPRESS = none ∨ env.RICHLOG_TRACEBACK_SUPPRESS = some "")
        → r.traceback_suppress = s.traceback_suppress) := by
  have hr : r = applyEnv env s := _load_from_env_ok env s r h
  subst hr
  refine ⟨?_, ?_, ?_, ?_, ?_, ?_, ?_, ?_, ?_, ?_⟩
  · intro v hv hne; simp [applyEnv, hv, hne]
  · rintro (hv | hv) <;> simp [applyEnv, hv]
  · intro v hv hne; simp [applyEnv, hv, hne]
  · rintro (hv | hv) <;> simp [applyEnv, hv]
  · intro v hv hne; simp [applyEnv, hv, hne]
  · rintro (hv | hv) <;> simp [applyEnv, hv]
  · intro v hv; simp [applyEnv, hv]
  · intro hv; simp [applyEnv, hv]
  · intro v hv hne; simp [applyEnv, hv, hne]
  · rintro (hv | hv) <;> simp [applyEnv, hv]

/-- C5 witness: the environment sets `RICHLOG_LEVEL=DEBUG` over a
file-supplied ERROR, and the resolved level is DEBUG. -/
theorem C5_witness :
    (applyEnv { RICHLOG_LEVEL := some "DEBUG" } { level := "ERROR" }).level = "DEBUG" := by
  have h := C5_env_precedence { RICHLOG_LEVEL := some "DEBUG" } { level := "ERROR" }
    (applyEnv { RICHLOG_LEVEL := some "DEBUG" } { level := "ERROR" }) (by rfl)
  exact h.1 "DEBUG" rfl (by decide)

/-- C1 counterexample: the INI file supplies the invalid level VERBOSE while
the environment supplies the valid DEBUG.  After full precedence the level
would be DEBUG — valid, so the claim requires resolution to succeed — yet
`load_settings` fails with `ConfigError`, because `_load_from_ini`
re-validates the level before the environment layer runs. -/
theorem C1_counterexample :
    (applyEnv { RICHLOG_LEVEL := some "DEBUG" }
        (applyFile (.iniFile "app.ini" (some { level := some "VERBOSE" })) {})).validLevel = true
    ∧ load_settings (.iniFile "app.ini" (some { level := some "VERBOSE" }))
        { RICHLOG_LEVEL := some "DEBUG" }
      = .error ("Failed to load configuration from app.ini: Invalid log level: VERBOSE. "
          ++ "Valid levels are: CRITICAL, DEBUG, ERROR, INFO, WARNING") :=
  ⟨rfl, rfl⟩

theorem finishLoad_isOk (env : Env) (s1 : Settings) :
    (finishLoad env s1).isOk = (applyEnv env s1).validLevel := by
  unfold finishLoad _load_from_env Settings.validateRaise
  by_cases hv : (applyEnv env s1).validLevel
  · simp [hv, Except.isOk, Except.toBool]
  · simp [hv, Except.isOk, Except.toBool]

/-- C1 amended: settings resolution validates the level not only after all
layers but also inside the file layer (whenever a `richlog` section or table
is present), so with an existing, parseable file, resolution succeeds exactly
when the level is valid both right after the file layer and after the
environment layer; a file-supplied invalid level fails with `ConfigError`
even when the environment overrides it with a valid one. -/
theorem C1_validation_after_each_layer (src : ConfigSource) (env : Env)
    (h : ∀ p, src ≠ .missing p) :
    (load_settings src env).isOk
      = ((applyFile src {}).validLevel && (applyEnv env (applyFile src {})).validLevel) := by
  cases src with
  | noFile =>
    have hd : ({} : Settings).validLevel = true := by decide
    simp [load_settings, applyFile, finishLoad_isOk, hd]
  | missing path => exact absurd rfl (h path)
  | iniFile path sec =>
    cases sec with
    | none =>
      have hd : ({} : Settings).validLevel = true := by decide
      simp [load_settings, _load_from_ini, applyFile, finishLoad_isOk, hd]
    | some sec =>
      by_cases hv : (applyIniSection sec {}).validLevel
      · simp [load_settings, _load_from_ini, Settings.validateRaise, hv, applyFile,
          finishLoad_isOk]
      · simp [load_settings, _load_from_ini, Settings.validateRaise, hv, applyFile,
          finishLoad_isOk, Except.isOk, Except.toBool]
  | tomlFile path tbl =>
    cases tbl with
    | none =>
      have hd : ({} : Settings).validLevel = true := by decide
      simp [load_settings, _load_from_toml, applyFile, finishLoad_isOk, hd]
    | some tbl =>
      by_cases hv : (applyTomlTable tbl {}).validLevel
      · simp [load_settings, _load_from_toml, Settings.validateRaise, hv, applyFile,
          finishLoad_isOk]
      · simp [load_settings, _load_from_toml, Settings.validateRaise, hv, applyFile,
          finishLoad_isOk, Except.isOk, Except.toBool]

/-- C1 witness: a file-supplied invalid level makes resolution fail even
though the defaults and environment leave the final level valid. -/
theorem C1_witness :
    (load_settings (ConfigSource.iniFile "cfg.ini" (some { level := some "VERBOSE" })) {}).isOk
      = false := by
  have h := C1_validation_after_each_layer
    (ConfigSource.iniFile "cfg.ini" (some { level := some "VERBOSE" })) {}
    (by intro p hcon; exact ConfigSource.noConfusion hcon)
  rw [h]
  decide

/-- C2 counterexample: the claim says a flush of an empty buffer performs
zero calls on the underlying sink, but the code unconditionally calls
`base_handler.flush()`: the downstream trace is `[flushCall]`, not `[]`. -/
theorem C2_counterexample :
    (BufferedHandler.flush { buffer_size := 3 }).2 = [SinkCall.flushCall]
    ∧ (BufferedHandler.flush { buffer_size := 3 }).2 ≠ [] :=
  ⟨rfl, by decide⟩

/-- C2 amended: flushing an empty buffer performs zero `emit` calls on the
underlying handler and leaves the buffer empty, but it still performs one
downstream call — `base_handler.flush()` is invoked unconditionally (the
`hasattr` guard always holds for a `logging.Handler` base). -/
theorem C2_flush_empty_buffer (h : BufferedHandler) (he : h.buffer = []) :
    h.flush = ({ h with buffer := [] }, [SinkCall.flushCall]) := by
  unfold BufferedHandler.flush
  rw [he]
  exact rfl

/-- C2 witness: an empty buffered handler of capacity 3. -/
theorem C2_witness :
    BufferedHandler.flush { buffer_size := 3 }
      = ({ buffer_size := 3 }, [SinkCall.flushCall]) :=
  C2_flush_empty_buffer { buffer_size := 3 } rfl

/-- C4 counterexample: closing a buffered handler holding one record flushes
it — an `emit` of the record followed by a downstream `flush()` — but the
underlying wrapped handler receives no `close` call, contrary to the claim
that `close()` releases/closes the underlying sink:
`BufferedHandler.close` calls `super().close()`, not
`base_handler.close()`. -/
theorem C4_counterexample :
    (BufferedHandler.close { buffer_size := 5, buffer := [7] }).2
      = [SinkCall.emitCall 7, SinkCall.flushCall]
    ∧ SinkCall.closeCall ∉ (BufferedHandler.close { buffer_size := 5, buffer := [7] }).2 :=
  ⟨rfl, by decide⟩

/-- C4 amended: `close()` first delivers all buffered records (a flush: the
buffered emits in order followed by a downstream `flush()`), and then closes
the handler itself via `logging.Handler.close`; the underlying wrapped
handler receives no `close` call. -/
theorem C4_close_flushes_but_keeps_sink (h : BufferedHandler) :
    h.close = ({ h with buffer := [] }, h.buffer.map SinkCall.emitCall ++ [SinkCall.flushCall])
    ∧ SinkCall.closeCall ∉ (h.close).2 := by
  constructor
  · rfl
  · unfold BufferedHandler.close BufferedHandler.flush
    simp

theorem emitAll_cons (h : BufferedHandler) (r : Rec) (rs : List Rec) :
    emitAll h (r :: rs)
      = ((emitAll (h.emit r).1 rs).1, (h.emit r).2 ++ (emitAll (h.emit r).1 rs).2) := rfl

theorem emitAll_below_capacity (rs : List Rec) : ∀ h : BufferedHandler,
    h.buffer.length + rs.length < h.buffer_size →
    emitAll h rs = ({ h with buffer := h.buffer ++ rs }, []) := by
  induction rs with
  | nil => intro h _; simp [emitAll]
  | cons r rs ih =>
    intro h hlt
    have hemit : h.emit r = ({ h with buffer := h.buffer ++ [r] }, []) := by
      simp only [BufferedHandler.emit]
      split
      · rename_i hc
        simp only [List.length_append, List.length_cons, List.length_nil] at hc hlt
        omega
      · rfl
    have ihh := ih { h with buffer := h.buffer ++ [r] }
      (by simp only [List.length_append, List.length_cons, List.length_nil] at hlt ⊢; omega)
    rw [emitAll_cons, hemit]
    simp [ihh, List.append_assoc]

theorem emitAll_reaching_capacity (rs : List Rec) : ∀ h : BufferedHandler,
    rs ≠ [] → h.buffer.length + rs.length = h.buffer_size →
    emitAll h rs
      = ({ h with buffer := [] },
          (h.buffer ++ rs).map SinkCall.emitCall ++ [SinkCall.flushCall]) := by
  induction rs with
  | nil => intro h hne _; exact absurd rfl hne
  | cons r rs ih =>
    intro h _ hlen
    cases rs with
    | nil =>
      have hemit : h.emit r
          = ({ h with buffer := [] },
              (h.buffer ++ [r]).map SinkCall.emitCall ++ [SinkCall.flushCall]) := by
        simp only [BufferedHandler.emit]
        split
        · simp [BufferedHandler.flush]
        · rename_i hc
          simp only [List.length_append, List.length_cons, List.length_nil] at hc hlen
          omega
      rw [emitAll_cons, hemit]
      simp [emitAll]
    | cons r2 rs2 =>
      have hemit : h.emit r = ({ h with buffer := h.buffer ++ [r] }, []) := by
        simp only [BufferedHandler.emit]
        split
        · rename_i hc
          simp only [List.length_append, List.length_cons, List.length_nil] at hc hlen
          omega
        · rfl
      have ihh := ih { h with buffer := h.buffer ++ [r] } (by simp)
        (by simp only [List.length_append, List.length_cons, List.length_nil] at hlen ⊢; omega)
      rw [emitAll_cons, hemit]
      simp [ihh, List.append_assoc]

/-- C6: with positive capacity `c` and an initially empty buffer, emitting
exactly `c` records causes exactly one flush of the underlying handler — all
`c` records emitted downstream in emission order followed by one downstream
`flush()` — while emitting `c - 1` records causes zero downstream calls and
leaves the records buffered in order. -/
theorem C6_capacity_triggers_single_flush (c : Nat) (rs1 rs2 : List Rec)
    (hc : 0 < c) (h1 : rs1.length = c) (h2 : rs2.length = c - 1) :
    emitAll { buffer_size := c } rs1
      = ({ buffer_size := c }, rs1.map SinkCall.emitCall ++ [SinkCall.flushCall])
    ∧ emitAll { buffer_size := c } rs2 = ({ buffer_size := c, buffer := rs2 }, []) := by
  constructor
  · have hne : rs1 ≠ [] := by
      intro hcon
      rw [hcon] at h1
      simp at h1
      omega
    have h := emitAll_reaching_capacity rs1 { buffer_size := c } hne (by simpa using h1)
    simpa using h
  · have h := emitAll_below_capacity rs2 { buffer_size := c } (by simp [h2]; omega)
    simpa using h

/-- C6 witness: capacity 2; two emits flush both records in order, one emit
stays buffered with no downstream call. -/
theorem C6_witness :
    emitAll { buffer_size := 2 } [5, 6]
      = ({ buffer_size := 2 }, [SinkCall.emitCall 5, SinkCall.emitCall 6, SinkCall.flushCall])
    ∧ emitAll { buffer_size := 2 } [5] = ({ buffer_size := 2, buffer := [5] }, []) := by
  have h := C6_capacity_triggers_single_flush 2 [5, 6] [5] (by decide) (by decide) (by decide)
  simpa using h

theorem async_queue_invariant (c : Nat) (s : AsyncState) (h : AsyncReachable c s) :
    s.delivered ++ s.queue = s.enqueued := by
  induction h with
  | init => rfl
  | step u t hu hstep ih =>
    cases hstep with
    | emitStep r =>
      simp only [AsyncState.emit]
      split
      · exact ih
      · simp only []
        rw [← List.append_assoc, ih]
    | deliverStep r rest hq =>
      rw [hq] at ih
      simp only []
      rw [List.append_assoc]
      simpa using ih
    | timeoutStep hq => exact ih

/-- C8: in every reachable state of the asynchronous handler, the records
already passed to the underlying handler followed by the records still
queued are exactly the successfully enqueued records in enqueue order; in
particular the delivered records form an initial segment of the enqueue
order, so two enqueued records are always delivered in their enqueue order
and never reordered. -/
theorem C8_async_fifo (c : Nat) (s : AsyncState) (h : AsyncReachable c s) :
    s.delivered ++ s.queue = s.enqueued
    ∧ ∀ i, i < s.delivered.length → s.delivered[i]? = s.enqueued[i]? := by
  have hinv := async_queue_invariant c s h
  refine ⟨hinv, ?_⟩
  intro i hi
  rw [← hinv, List.getElem?_append_left hi]

/-- C8 witness: enqueue 10 then 20 with capacity 2, deliver one record; the
delivered prefix and the queue line up with the enqueue order. -/
theorem C8_witness :
    ({ queue_size := 2, queue := [20], delivered := [10], enqueued := [10, 20] } : AsyncState).delivered
      ++ ({ queue_size := 2, queue := [20], delivered := [10], enqueued := [10, 20] } : AsyncState).queue
      = [10, 20] := by
  have h1 : AsyncReachable 2 ((asyncInit 2).emit 10) :=
    .step _ _ .init (.emitStep _ 10)
  have h2 : AsyncReachable 2 (((asyncInit 2).emit 10).emit 20) :=
    .step _ _ h1 (.emitStep _ 20)
  have he : ((asyncInit 2).emit 10).emit 20
      = { queue_size := 2, queue := [10, 20], delivered := [], enqueued := [10, 20] } := by
    decide
  rw [he] at h2
  have h3 : AsyncReachable 2
      { queue_size := 2, queue := [20], delivered := [10], enqueued := [10, 20] } := by
    have hd := AsyncStep.deliverStep
      { queue_size := 2, queue := [10, 20], delivered := [], enqueued := [10, 20] } 10 [20] rfl
    exact .step _ _ h2 hd
  exact (C8_async_fifo 2 _ h3).1

/-- C7: `emit` is a total function of the handler state — it neither raises
nor blocks.  With free space in the bounded queue the record is appended to
the queue and recorded as enqueued; with a full queue the state is unchanged
(the record is silently dropped); and in every reachable state the records
delivered downstream never outnumber the successfully enqueued ones. -/
theorem C7_async_emit_never_fails (s : AsyncState) (r : Rec) (c : Nat) (t : AsyncState)
    (hreach : AsyncReachable c t) :
    (¬ (0 < s.queue_size ∧ s.queue_size ≤ s.queue.length) →
      s.emit r = { s with queue := s.queue ++ [r], enqueued := s.enqueued ++ [r] })
    ∧ ((0 < s.queue_size ∧ s.queue_size ≤ s.queue.length) → s.emit r = s)
    ∧ t.delivered.length ≤ t.enqueued.length := by
  refine ⟨?_, ?_, ?_⟩
  · intro hfree
    simp only [AsyncState.emit]
    rw [if_neg hfree]
  · intro hfull
    simp only [AsyncState.emit]
    rw [if_pos hfull]
  · have hinv := async_queue_invariant c t hreach
    calc t.delivered.length ≤ t.delivered.length + t.queue.length := Nat.le_add_right _ _
      _ = (t.delivered ++ t.queue).length := (List.length_append _ _).symm
      _ = t.enqueued.length := by rw [hinv]

/-- C7 witness: a full queue of capacity 1 silently drops an emitted record,
and the initial state delivers no more than it enqueued. -/
theorem C7_witness :
    AsyncState.emit { queue_size := 1, queue := [3] } 4 = { queue_size := 1, queue := [3] }
    ∧ (asyncInit 1).delivered.length ≤ (asyncInit 1).enqueued.length := by
  have h := C7_async_emit_never_fails { queue_size := 1, queue := [3] } 4 1 (asyncInit 1) .init
  exact ⟨h.2.1 (by decide), h.2.2⟩

theorem pySerializableKVs_append (a b : List (String × PyValue)) :
    pySerializableKVs (a ++ b) = (pySerializableKVs a && pySerializableKVs b) := by
  induction a with
  | nil => simp [pySerializableKVs]
  | cons kv kvs ih => simp [pySerializableKVs, ih, Bool.and_assoc]

/-- C3 counterexample: a record whose extra field holds a non-JSON-serializable
object (a Python object of type `socket`): the claim says `format` returns a
string without raising, but `json.dumps` — called without a `default=`
fallback — raises `TypeError`, aborting the formatting of the core fields. -/
theorem C3_counterexample :
    (JSONHandler.format "2026-01-01T00:00:00+00:00"
      { name := "test", levelname := "INFO", message := "m", pathname := "t.py",
        lineno := 10, funcName := "f", thread := 1, threadName := "MainThread",
        process := 1, extras := [("user_ctx", PyValue.pyObj "socket")] }).isOk = false := by
  decide

theorem json_dumps_isOk (l : List (String × PyValue)) :
    (json_dumps l).isOk = pySerializableKVs l := by
  unfold json_dumps
  by_cases h : pySerializableKVs l
  · simp [h, Except.isOk, Except.toBool]
  · simp [h, Except.isOk, Except.toBool]

/-- C3 amended: `format` returns a string exactly when every non-reserved
extra value on the record is JSON-serializable (the core fields by themselves
always are); a non-serializable extra value makes `json.dumps` raise
`TypeError`, aborting the whole formatting — there is no best-effort string
conversion. -/
theorem C3_format_ok_iff_extras_serializable (ts : String) (record : LogRecord) :
    (JSONHandler.format ts record).isOk
      = pySerializableKVs (record.extras.filter (fun kv => notReserved kv.1)) := by
  simp only [JSONHandler.format]
  cases hexc : record.exc_info with
  | none =>
    by_cases hemp : (record.extras.filter (fun kv => notReserved kv.1)).isEmpty
    · have hnil := List.isEmpty_iff.mp hemp
      simp [hemp, hnil, json_dumps_isOk, pySerializableKVs, pySerializable]
    · simp [hemp, json_dumps_isOk, pySerializableKVs_append, pySerializableKVs, pySerializable]
  | some txt =>
    by_cases hemp : (record.extras.filter (fun kv => notReserved kv.1)).isEmpty
    · have hnil := List.isEmpty_iff.mp hemp
      simp [hemp, hnil, json_dumps_isOk, pySerializableKVs, pySerializable]
    · simp [hemp, json_dumps_isOk, pySerializableKVs_append, pySerializableKVs, pySerializable]

/-- C9: `log_context` sets the logger's level to the target for the dynamic
extent of the scope — the body runs on the logger with its level set to the
target — and on exit the level is restored to exactly the level saved at
entry, whether the body's outcome is a normal return or a raised error; the
outcome itself is propagated unchanged after the restore. -/
theorem C9_log_context_restores_level (lg : Logger) (level : Nat)
    (body : Logger → Logger × Except String Unit) :
    (log_context lg level body).1.level = lg.level
    ∧ (log_context lg level body).2 = (body { lg with level := level }).2
    ∧ ({ lg with level := level } : Logger).level = level :=
  ⟨rfl, rfl, rfl⟩

end Richlog
